import Mathlib

/-!
Verification of the task-manager HTTP service (`app.js`).

The service keeps an in-memory list of tasks and exposes CRUD handlers.
We shallowly embed the request bodies (JavaScript values), the validator
`validateTask`, and the six route handlers as pure Lean functions over an
explicit store (`List Task`).  The server clock is passed explicitly.
-/

namespace TaskApi

/-- JavaScript values as far as the request-body logic inspects them:
`undefined`, `null`, booleans, numbers and strings.  (The handlers only
ever test truthiness, `typeof`, strict equality with strings/booleans,
and read the string/boolean payload.) -/
inductive JsVal where
  | undef
  | nullv
  | jbool (b : Bool)
  | jnum (n : Int)
  | jstr (s : String)
  deriving DecidableEq

/-- JavaScript truthiness: `undefined`, `null`, `false`, `0` and `""` are
falsy, everything else (we model) is truthy. -/
def JsVal.truthy : JsVal → Bool
  | .undef => false
  | .nullv => false
  | .jbool b => b
  | .jnum n => n != 0
  | .jstr s => s != ""

/-- Whether `typeof v === 'string'`. -/
def JsVal.isString : JsVal → Bool
  | .jstr _ => true
  | _ => false

/-- Whether `typeof v === 'boolean'`. -/
def JsVal.isBool : JsVal → Bool
  | .jbool _ => true
  | _ => false

/-- The string payload of a string value (only consulted after an
`isString` check in the code paths we model). -/
def JsVal.strVal : JsVal → String
  | .jstr s => s
  | _ => ""

/-- The boolean payload of a boolean value (only consulted after an
`isBool` check). -/
def JsVal.boolVal : JsVal → Bool
  | .jbool b => b
  | _ => false

/-- A request body as the handlers read it: the four validated fields plus
the `id` and `createdAt` fields a client might also send (the code never
reads those two from the body). -/
structure Body where
  idField : JsVal
  title : JsVal
  description : JsVal
  completed : JsVal
  priority : JsVal
  createdAtField : JsVal
  deriving DecidableEq

/-- `s.trim()`: strip leading and trailing whitespace. -/
def jsTrim (s : String) : String :=
  String.mk (((s.data.dropWhile Char.isWhitespace).reverse.dropWhile Char.isWhitespace).reverse)

/-- `s.toLowerCase()` on the ASCII range the service uses. -/
def jsToLower (s : String) : String :=
  String.mk (s.data.map Char.toLower)

/-- `['low', 'medium', 'high']` from `validateTask` and the priority route. -/
def validPriorities : List String := ["low", "medium", "high"]

/-- The failing test of rule 1/2 in `validateTask` (strict mode):
`!v || typeof v !== 'string' || v.trim().length === 0`. -/
def badRequiredString (v : JsVal) : Bool :=
  !v.truthy || !v.isString || (jsTrim v.strVal).length == 0

/-- The failing test of rule 3 in `validateTask` (strict mode):
`v === undefined || typeof v !== 'boolean'`. -/
def badRequiredBool (v : JsVal) : Bool :=
  v == .undef || !v.isBool

/-- The failing test of the lenient-mode string rules:
`v !== undefined && (typeof v !== 'string' || v.trim().length === 0)`. -/
def badOptionalString (v : JsVal) : Bool :=
  v != .undef && (!v.isString || (jsTrim v.strVal).length == 0)

/-- The failing test of the lenient-mode completed rule. -/
def badOptionalBool (v : JsVal) : Bool :=
  v != .undef && !v.isBool

/-- The priority rule of `validateTask`: absent, or (strictly, by `===`)
one of the three enumeration strings. -/
def priorityOk (v : JsVal) : Bool :=
  v == .undef || validPriorities.any (fun p => v == .jstr p)

/-- `validateTask(task, requireAllFields)`: returns `some message` for the
first failing rule, `none` on acceptance.  Rule order is title,
description, completed, then (in both modes) priority. -/
def validateTask (task : Body) (requireAllFields : Bool) : Option String :=
  if requireAllFields then
    if badRequiredString task.title then
      some "title is required and must be a non-empty string"
    else if badRequiredString task.description then
      some "description is required and must be a non-empty string"
    else if badRequiredBool task.completed then
      some "completed is required and must be a boolean"
    else if !priorityOk task.priority then
      some "priority must be one of: low, medium, high"
    else none
  else
    if badOptionalString task.title then
      some "title must be a non-empty string"
    else if badOptionalString task.description then
      some "description must be a non-empty string"
    else if badOptionalBool task.completed then
      some "completed must be a boolean"
    else if !priorityOk task.priority then
      some "priority must be one of: low, medium, high"
    else none

/-- A stored `createdAt` field together with how `new Date(x)` reads it:
`missing` covers a falsy field (absent or the empty string, both of which
`x || 0` turns into epoch zero), `invalid s` a truthy string that fails
date parsing (`new Date(s)` is an Invalid Date, timestamp NaN), and
`valid s ms` a truthy string parsing to `ms` milliseconds since epoch. -/
inductive DateStr where
  | missing
  | invalid (s : String)
  | valid (s : String) (ms : Int)
  deriving DecidableEq

/-- A stored task record.  `priority` is `none` when the record lacks the
field (possible for records loaded from `task.json`); handler-written
records always carry `some`. -/
structure Task where
  id : Int
  title : String
  description : String
  completed : Bool
  priority : Option String
  createdAt : DateStr
  deriving DecidableEq

/-- A response body: a task array, a single task, a `{message}` object or
an `{error}` object. -/
inductive RespBody where
  | tasks (ts : List Task)
  | task (t : Task)
  | message (m : String)
  | error (e : String)
  deriving DecidableEq

/-- An HTTP response: status code and JSON body. -/
structure Response where
  status : Nat
  body : RespBody
  deriving DecidableEq

/-- The server clock at the moment a handler runs: the ISO-8601 string
`new Date().toISOString()` produces and the timestamp it denotes. -/
structure Clock where
  isoStr : String
  ms : Int
  deriving DecidableEq

/-- The timestamp `new Date(t.createdAt || 0)` yields, `none` for NaN. -/
def dateVal : DateStr → Option Int
  | .missing => some 0
  | .invalid _ => none
  | .valid _ ms => some ms

/-- JavaScript subtraction of two date values: NaN-propagating. -/
def jsSub : Option Int → Option Int → Option Int
  | some a, some b => some (a - b)
  | _, _ => none

/-- Whether a comparator result is `> 0` (NaN compares false, so a NaN
result behaves like "equal": the pair keeps its relative order). -/
def compPos : Option Int → Bool
  | none => false
  | some v => decide (0 < v)

/-- The comparator of `GET /tasks`: `dateA - dateB` under `?sort=oldest`,
`dateB - dateA` otherwise. -/
def taskComparator (qsort : Option String) (a b : Task) : Option Int :=
  if qsort == some "oldest" then jsSub (dateVal a.createdAt) (dateVal b.createdAt)
  else jsSub (dateVal b.createdAt) (dateVal a.createdAt)

/-- Stable insertion used to model `Array.prototype.sort`: `x` (the
earlier element) moves past `y` exactly when the comparator says
`c(x, y) > 0`; a NaN comparator result keeps the original order, which is
what Node's sort does with an inconsistent comparator. -/
def insertByComp (c : Task → Task → Option Int) (x : Task) : List Task → List Task
  | [] => [x]
  | y :: ys => if compPos (c x y) then y :: insertByComp c x ys else x :: y :: ys

/-- Stable comparator sort modelling `filteredTasks.sort(...)`. -/
def sortByComp (c : Task → Task → Option Int) : List Task → List Task
  | [] => []
  | x :: xs => insertByComp c x (sortByComp c xs)

/-- The completion filter of `GET /tasks`: when the `completed` query
parameter is present, keep tasks whose `completed` strictly equals
`(value === 'true')`. -/
def completedFilter (q : Option String) (ts : List Task) : List Task :=
  match q with
  | none => ts
  | some v => ts.filter (fun t => t.completed == (v == "true"))

/-- Handler of `GET /tasks`: optional completion filter, then sort by
creation date (newest first by default, oldest first with `?sort=oldest`). -/
def getTasks (qcompleted qsort : Option String) (tasks : List Task) : Response :=
  ⟨200, .tasks (sortByComp (taskComparator qsort) (completedFilter qcompleted tasks))⟩

/-- `task.priority || 'medium'`: a falsy stored priority (absent or empty
string) falls back to `"medium"`. -/
def priorityOrMedium : Option String → String
  | none => "medium"
  | some s => if s == "" then "medium" else s

/-- Handler of `GET /tasks/priority/:level`. -/
def getTasksByPriority (level : String) (tasks : List Task) : Response :=
  let lvl := jsToLower level
  if !validPriorities.contains lvl then
    ⟨400, .error "Invalid priority level. Must be one of: low, medium, high"⟩
  else
    ⟨200, .tasks (tasks.filter (fun t => jsToLower (priorityOrMedium t.priority) == lvl))⟩

/-- `parseInt(s)` (base 10): skip leading whitespace, optional sign, then
the longest digit prefix; `none` models NaN when no digit is found. -/
def parseIntJs (s : String) : Option Int :=
  let cs := s.data.dropWhile Char.isWhitespace
  let signAndRest : Int × List Char :=
    match cs with
    | '-' :: rest => (-1, rest)
    | '+' :: rest => (1, rest)
    | _ => (1, cs)
  let digits := signAndRest.2.takeWhile Char.isDigit
  if digits.isEmpty then none
  else some (signAndRest.1 * ((digits.foldl (fun n c => n * 10 + (c.toNat - 48)) 0 : Nat) : Int))

/-- The predicate `t => t.id === id` of the by-id routes; a NaN id (failed
parse) matches nothing, since `NaN === x` is always false. -/
def matchesId (pid : Option Int) (t : Task) : Bool :=
  match pid with
  | none => false
  | some n => t.id == n

/-- Handler of `GET /tasks/:id`. -/
def getTaskById (idStr : String) (tasks : List Task) : Response :=
  match tasks.find? (matchesId (parseIntJs idStr)) with
  | none => ⟨404, .error "Task not found"⟩
  | some t => ⟨200, .task t⟩

/-- `Math.max(...tasks.map(t => t.id))` guarded by `tasks.length > 0`,
else `0`. -/
def maxId : List Task → Int
  | [] => 0
  | t :: ts => (ts.map Task.id).foldl max t.id

/-- The record `POST /tasks` builds once validation passed. -/
def createdTask (reqBody : Body) (now : Clock) (tasks : List Task) : Task :=
  { id := maxId tasks + 1
    title := reqBody.title.strVal
    description := reqBody.description.strVal
    completed := reqBody.completed.boolVal
    priority := some (if reqBody.priority.truthy then reqBody.priority.strVal else "medium")
    createdAt := .valid now.isoStr now.ms }

/-- Handler of `POST /tasks`: validate strictly, then append a record with
id `maxId + 1`, the body's fields, defaulted priority and a fresh
`createdAt`.  Returns the response and the new store. -/
def postTask (reqBody : Body) (now : Clock) (tasks : List Task) :
    Response × List Task :=
  match validateTask reqBody true with
  | some msg => (⟨400, .error msg⟩, tasks)
  | none =>
    let nt := createdTask reqBody now tasks
    (⟨201, .task nt⟩, tasks ++ [nt])

/-- Replace the first element satisfying `p` (the effect of
`tasks[taskIndex] = ...` after `findIndex`). -/
def replaceFirst (p : Task → Bool) (f : Task → Task) : List Task → List Task
  | [] => []
  | t :: ts => if p t then f t :: ts else t :: replaceFirst p f ts

/-- Remove the first element satisfying `p` (the effect of
`tasks.splice(taskIndex, 1)` after `findIndex`). -/
def removeFirst (p : Task → Bool) : List Task → List Task
  | [] => []
  | t :: ts => if p t then ts else t :: removeFirst p ts

/-- The record `PUT /tasks/:id` stores: parsed id, the body's fields,
priority falling back through the existing record's value to `"medium"`,
and the existing `createdAt` unless that is falsy (then the current
time). -/
def updatedTask (pid : Option Int) (reqBody : Body) (now : Clock) (existing : Task) :
    Task :=
  { id := pid.getD 0
    title := reqBody.title.strVal
    description := reqBody.description.strVal
    completed := reqBody.completed.boolVal
    priority := some (if reqBody.priority.truthy then reqBody.priority.strVal
                      else priorityOrMedium existing.priority)
    createdAt := match existing.createdAt with
                 | .missing => .valid now.isoStr now.ms
                 | d => d }

/-- Handler of `PUT /tasks/:id`: existence check first (404), then strict
validation (400), then in-place replacement of the first record with the
parsed id. -/
def putTask (idStr : String) (reqBody : Body) (now : Clock) (tasks : List Task) :
    Response × List Task :=
  let pid := parseIntJs idStr
  match tasks.find? (matchesId pid) with
  | none => (⟨404, .error "Task not found"⟩, tasks)
  | some existing =>
    match validateTask reqBody true with
    | some msg => (⟨400, .error msg⟩, tasks)
    | none =>
      let nt := updatedTask pid reqBody now existing
      (⟨200, .task nt⟩, replaceFirst (matchesId pid) (fun _ => nt) tasks)

/-- Handler of `DELETE /tasks/:id`. -/
def deleteTask (idStr : String) (tasks : List Task) : Response × List Task :=
  let pid := parseIntJs idStr
  match tasks.find? (matchesId pid) with
  | none => (⟨404, .error "Task not found"⟩, tasks)
  | some _ => (⟨200, .message "Task deleted successfully"⟩, removeFirst (matchesId pid) tasks)

/-- A mutating operation in one process lifetime (reads do not change the
store, so only create and delete matter for the id-allocation claims). -/
inductive Op where
  | create (reqBody : Body) (now : Clock)
  | del (idStr : String)
  deriving DecidableEq

/-- Apply one operation to the store. -/
def applyOp (tasks : List Task) : Op → List Task
  | .create b now => (postTask b now tasks).2
  | .del s => (deleteTask s tasks).2

/-- Run a sequence of operations. -/
def runOps (tasks : List Task) (ops : List Op) : List Task :=
  ops.foldl applyOp tasks

/-- The ids successive successful creates assign along a run. -/
def assignedIds : List Task → List Op → List Int
  | _, [] => []
  | ts, op :: ops =>
    let rest := assignedIds (applyOp ts op) ops
    match op with
    | .create b _ => if (validateTask b true).isNone then (maxId ts + 1) :: rest else rest
    | .del _ => rest

/-- Modelled from the spec: the sort key the specification describes for
`GET /tasks` — the task's `createdAt` timestamp, with a missing or
unparseable `createdAt` "ordered as if its timestamp were epoch zero". -/
def specEpochKey (t : Task) : Int :=
  match dateVal t.createdAt with
  | none => 0
  | some ms => ms

/-- The timestamp the code actually sorts by when it is a number (missing
maps to epoch zero; an unparseable field has no number). -/
def keyD (t : Task) : Int :=
  (dateVal t.createdAt).getD 0

/-- A fixed valid request body used by concrete scenarios. -/
def body0 : Body :=
  ⟨.undef, .jstr "A", .jstr "B", .jbool false, .undef, .undef⟩

/-- A fixed clock used by concrete scenarios. -/
def clock0 : Clock :=
  ⟨"2024-01-01T00:00:00.000Z", 1704067200000⟩

/-- The create/create/delete/create scenario in which the deleted maximum
id is reassigned. -/
def c1ops : List Op :=
  [Op.create body0 clock0, Op.create body0 clock0, Op.del "2", Op.create body0 clock0]

/-! Shared lemmas. -/

/-- A left fold by `max` dominates its initial value and every element. -/
theorem foldl_max_bounds (l : List Int) :
    ∀ init : Int, init ≤ l.foldl max init ∧ ∀ a ∈ l, a ≤ l.foldl max init := by
  induction l with
  | nil => intro init; exact ⟨le_refl _, by simp⟩
  | cons x xs ih =>
    intro init
    refine ⟨le_trans (le_max_left init x) (ih (max init x)).1, ?_⟩
    intro a ha
    rcases List.mem_cons.mp ha with h | h
    · subst h; exact le_trans (le_max_right init a) (ih (max init a)).1
    · exact (ih (max init x)).2 a h

/-- `maxId` dominates every id in the store. -/
theorem le_maxId (ts : List Task) : ∀ t ∈ ts, t.id ≤ maxId ts := by
  intro t ht
  cases ts with
  | nil => cases ht
  | cons hd tl =>
    rcases List.mem_cons.mp ht with h | h
    · subst h; exact (foldl_max_bounds (tl.map Task.id) t.id).1
    · exact (foldl_max_bounds (tl.map Task.id) hd.id).2 t.id (List.mem_map_of_mem _ h)

/-- A failed validation leaves `POST /tasks` with a 400 and the store as
it was. -/
theorem postTask_invalid (ts : List Task) (b : Body) (now : Clock) (msg : String)
    (hval : validateTask b true = some msg) :
    postTask b now ts = (⟨400, .error msg⟩, ts) := by
  simp [postTask, hval]

/-- On a successful create the stored ids are the old ids plus
`maxId + 1`. -/
theorem postTask_ids (ts : List Task) (b : Body) (now : Clock)
    (hval : validateTask b true = none) :
    (postTask b now ts).2.map Task.id = ts.map Task.id ++ [maxId ts + 1] := by
  simp [postTask, hval, createdTask]

/-- Removing the first match is a sublist of the original store. -/
theorem removeFirst_sublist (p : Task → Bool) (l : List Task) :
    (removeFirst p l).Sublist l := by
  induction l with
  | nil => simp [removeFirst]
  | cons t ts ih =>
    rw [removeFirst]
    by_cases h : p t
    · simp only [h, if_true]
      exact List.sublist_cons_self t ts
    · simp only [h, if_false]
      exact List.Sublist.cons₂ t ih

/-- `DELETE /tasks/:id` never grows the store: its result is a sublist. -/
theorem deleteTask_sublist (idStr : String) (ts : List Task) :
    ((deleteTask idStr ts).2).Sublist ts := by
  rw [deleteTask]
  cases h : ts.find? (matchesId (parseIntJs idStr)) with
  | none => simp
  | some t => simpa using removeFirst_sublist _ ts

/-- Every store reachable from a store with pairwise-distinct ids by
creates and deletes again has pairwise-distinct ids. -/
theorem runOps_ids_nodup (ops : List Op) :
    ∀ ts : List Task, (ts.map Task.id).Nodup → ((runOps ts ops).map Task.id).Nodup := by
  induction ops with
  | nil => intro ts h; exact h
  | cons op ops ih =>
    intro ts h
    have hstep : ((applyOp ts op).map Task.id).Nodup := by
      cases op with
      | create b now =>
        cases hv : validateTask b true with
        | some msg => simpa [applyOp, postTask_invalid ts b now msg hv] using h
        | none =>
          rw [applyOp, postTask_ids ts b now hv]
          refine h.append (List.nodup_singleton _) ?_
          intro a ha hb
          rcases List.mem_map.mp ha with ⟨t, ht, rfl⟩
          have h1 := le_maxId ts t ht
          have h2 : t.id = maxId ts + 1 := by simpa using hb
          omega
      | del s =>
        exact h.sublist ((deleteTask_sublist s ts).map Task.id)
    have : runOps ts (op :: ops) = runOps (applyOp ts op) ops := rfl
    rw [this]
    exact ih _ hstep

/-! Claim C1. -/

/-- C1 counterexample: starting from the empty store, two valid creates
assign ids 1 and 2, deleting id 2 succeeds, and the next create assigns
id 2 again — so the sequence of assigned ids is `[1, 2, 2]`, which is not
strictly increasing, and the deleted id 2 is reassigned. -/
theorem c1_id_reuse_counterexample :
    assignedIds [] c1ops = [1, 2, 2] ∧
    ¬ List.Pairwise (fun a b : Int => a < b) (assignedIds [] c1ops) ∧
    (deleteTask "2" (runOps [] [Op.create body0 clock0, Op.create body0 clock0])).1.status
      = 200 := by
  refine ⟨by decide, ?_, by decide⟩
  rw [show assignedIds [] c1ops = [1, 2, 2] from by decide]
  decide

/-- C1 amended: every id a successful create assigns is `maxId + 1`,
strictly greater than the id of every task in the store at that moment,
so the live collection keeps pairwise-distinct ids along any sequence of
creates and deletes; but an id is only fresh relative to the live store,
and (per the counterexample) a deleted maximal id can be reassigned. -/
theorem c1_create_id_fresh (ts : List Task) (b : Body) (now : Clock)
    (hval : validateTask b true = none) :
    (postTask b now ts).1.status = 201 ∧
    (∀ t ∈ ts, t.id < (createdTask b now ts).id) ∧
    (postTask b now ts).2.map Task.id = ts.map Task.id ++ [maxId ts + 1] ∧
    (∀ ops : List Op, ((runOps [] ops).map Task.id).Nodup) := by
  refine ⟨by simp [postTask, hval], ?_, postTask_ids ts b now hval, ?_⟩
  · intro t ht
    have := le_maxId ts t ht
    simp only [createdTask]
    omega
  · intro ops
    exact runOps_ids_nodup ops [] (by simp)

/-- Witness for C1 amended at a concrete store and body. -/
theorem c1_create_id_fresh_witness :
    (postTask body0 clock0 []).1.status = 201 ∧
    (∀ t ∈ ([] : List Task), t.id < (createdTask body0 clock0 []).id) ∧
    (postTask body0 clock0 []).2.map Task.id = [].map Task.id ++ [maxId [] + 1] ∧
    (∀ ops : List Op, ((runOps [] ops).map Task.id).Nodup) :=
  c1_create_id_fresh [] body0 clock0 (by decide)

/-! Sorting lemmas for `GET /tasks`. -/

/-- Stable insertion permutes: inserting `x` yields a rearrangement of
`x :: l`. -/
theorem insertByComp_perm (c : Task → Task → Option Int) (x : Task) (l : List Task) :
    (insertByComp c x l).Perm (x :: l) := by
  induction l with
  | nil => simp [insertByComp]
  | cons y ys ih =>
    rw [insertByComp]
    cases h : compPos (c x y) with
    | true =>
      simp only [if_true]
      exact (List.Perm.cons y ih).trans (List.Perm.swap x y ys)
    | false => simp

/-- The modelled sort returns a permutation of its input. -/
theorem sortByComp_perm (c : Task → Task → Option Int) (l : List Task) :
    (sortByComp c l).Perm l := by
  induction l with
  | nil => simp [sortByComp]
  | cons x xs ih =>
    rw [sortByComp]
    exact (insertByComp_perm c x (sortByComp c xs)).trans (List.Perm.cons x ih)

/-- Inserting into a list ordered by a transitive relation `R` compatible
with the comparator keeps it ordered. -/
theorem insertByComp_pairwise (c : Task → Task → Option Int) (R : Task → Task → Prop)
    (htrans : ∀ a b d, R a b → R b d → R a d) (x : Task) (l : List Task)
    (hx : ∀ y ∈ l, (compPos (c x y) = true → R y x) ∧ (compPos (c x y) = false → R x y))
    (hl : l.Pairwise R) : (insertByComp c x l).Pairwise R := by
  induction l with
  | nil => simp [insertByComp]
  | cons y ys ih =>
    rw [insertByComp]
    rcases List.pairwise_cons.mp hl with ⟨hy, hys⟩
    cases h : compPos (c x y) with
    | true =>
      simp only [if_true]
      refine List.pairwise_cons.mpr ⟨?_, ih (fun z hz => hx z (by simp [hz])) hys⟩
      intro z hz
      have hz1 : z ∈ x :: ys := (insertByComp_perm c x ys).mem_iff.mp hz
      rcases List.mem_cons.mp hz1 with heq | hz2
      · rw [heq]
        exact (hx y (List.mem_cons_self y ys)).1 h
      · exact hy z hz2
    | false =>
      simp only [Bool.false_eq_true, if_false]
      refine List.pairwise_cons.mpr ⟨?_, hl⟩
      intro z hz
      rcases List.mem_cons.mp hz with heq | hz2
      · rw [heq]
        exact (hx y (List.mem_cons_self y ys)).2 h
      · exact htrans x y z ((hx y (List.mem_cons_self y ys)).2 h) (hy z hz2)

/-- The modelled sort orders its output by any transitive relation the
comparator decides on the input's elements. -/
theorem sortByComp_pairwise (c : Task → Task → Option Int) (R : Task → Task → Prop)
    (htrans : ∀ a b d, R a b → R b d → R a d) (l : List Task)
    (h : ∀ x ∈ l, ∀ y ∈ l,
      (compPos (c x y) = true → R y x) ∧ (compPos (c x y) = false → R x y)) :
    (sortByComp c l).Pairwise R := by
  induction l with
  | nil => simp [sortByComp]
  | cons x xs ih =>
    rw [sortByComp]
    refine insertByComp_pairwise c R htrans x (sortByComp c xs) ?_ ?_
    · intro y hy
      exact h x (by simp) y (by simp [(sortByComp_perm c xs).mem_iff.mp hy])
    · exact ih (fun a ha b hb => h a (by simp [ha]) b (by simp [hb]))

/-! Claim C2. -/

/-- A store element of the first counterexample: truthy but unparseable
`createdAt`. -/
def cA : Task :=
  ⟨1, "t", "d", false, some "medium", DateStr.invalid "not-a-date"⟩

/-- A store element one second after epoch. -/
def cB : Task :=
  ⟨2, "t", "d", false, some "medium", DateStr.valid "1970-01-01T00:00:01.000Z" 1000⟩

/-- C2 counterexample: with a task whose `createdAt` is a truthy
unparseable string ahead of a task at timestamp 1000, the default
`GET /tasks` answers in stored order `[cA, cB]`; were the unparseable
date ordered as epoch zero, the descending default would have to put
`cB` (1000) first.  The NaN comparator result keeps the pair's relative
order instead of sorting the invalid date as epoch zero. -/
theorem c2_unparseable_counterexample :
    getTasks none none [cA, cB] = ⟨200, RespBody.tasks [cA, cB]⟩ ∧
    specEpochKey cA = 0 ∧ specEpochKey cB = 1000 ∧
    ¬ List.Pairwise (fun a b => specEpochKey b ≤ specEpochKey a) [cA, cB] := by
  refine ⟨by decide, by decide, by decide, ?_⟩
  intro h
  have h1 := (List.pairwise_cons.mp h).1 cB (by simp)
  rw [show specEpochKey cB = 1000 from by decide,
    show specEpochKey cA = 0 from by decide] at h1
  omega

/-- C2 amended: when no task in the store carries a truthy unparseable
`createdAt` and the (missing-maps-to-epoch-zero) timestamps are pairwise
distinct, `GET /tasks` returns a permutation of the (optionally
completion-filtered) store that is strictly descending by timestamp by
default and strictly ascending under `sort=oldest`; a missing `createdAt`
is ordered exactly as timestamp epoch zero. -/
theorem c2_sort_order (ts : List Task) (qc qs : Option String)
    (hvalid : ∀ t ∈ ts, (dateVal t.createdAt).isSome = true)
    (hdist : (ts.map keyD).Nodup) :
    ∃ out : List Task,
      getTasks qc qs ts = ⟨200, RespBody.tasks out⟩ ∧
      out.Perm (completedFilter qc ts) ∧
      (qs = some "oldest" → out.Pairwise (fun a b => keyD a < keyD b)) ∧
      (qs ≠ some "oldest" → out.Pairwise (fun a b => keyD b < keyD a)) ∧
      (∀ t ∈ ts, t.createdAt = DateStr.missing → keyD t = 0) := by
  set fts := completedFilter qc ts with hfts
  have hsub : fts.Sublist ts := by
    rw [hfts]
    cases qc with
    | none => exact List.Sublist.refl ts
    | some v => exact List.filter_sublist ts
  have hvalidf : ∀ t ∈ fts, (dateVal t.createdAt).isSome = true :=
    fun t ht => hvalid t (hsub.mem ht)
  have hperm : (sortByComp (taskComparator qs) fts).Perm fts :=
    sortByComp_perm (taskComparator qs) fts
  refine ⟨sortByComp (taskComparator qs) fts, rfl, hperm, ?_, ?_, ?_⟩
  · intro hqs
    have hle : (sortByComp (taskComparator qs) fts).Pairwise
        (fun a b => keyD a ≤ keyD b) := by
      refine sortByComp_pairwise (taskComparator qs) (fun a b => keyD a ≤ keyD b)
        (fun a b d h1 h2 => le_trans h1 h2) fts ?_
      intro x hx y hy
      obtain ⟨kx, hkx⟩ := Option.isSome_iff_exists.mp (hvalidf x hx)
      obtain ⟨ky, hky⟩ := Option.isSome_iff_exists.mp (hvalidf y hy)
      have hc : taskComparator qs x y = some (kx - ky) := by
        simp [taskComparator, hqs, jsSub, hkx, hky]
      have hkdx : keyD x = kx := by simp [keyD, hkx]
      have hkdy : keyD y = ky := by simp [keyD, hky]
      constructor
      · intro hp
        rw [hc] at hp
        have h0 : 0 < kx - ky := by simpa [compPos] using hp
        show keyD y ≤ keyD x
        rw [hkdx, hkdy]
        omega
      · intro hp
        rw [hc] at hp
        have h0 : ¬ (0 < kx - ky) := by simpa [compPos] using hp
        show keyD x ≤ keyD y
        rw [hkdx, hkdy]
        omega
    have hnd : ((sortByComp (taskComparator qs) fts).map keyD).Nodup := by
      refine ((hperm.map keyD).nodup_iff).mpr ?_
      exact (hsub.map keyD).nodup hdist
    have hne : (sortByComp (taskComparator qs) fts).Pairwise
        (fun a b => keyD a ≠ keyD b) := List.pairwise_map.mp hnd
    exact (hle.and hne).imp (fun h => lt_of_le_of_ne h.1 h.2)
  · intro hqs
    have hle : (sortByComp (taskComparator qs) fts).Pairwise
        (fun a b => keyD b ≤ keyD a) := by
      refine sortByComp_pairwise (taskComparator qs) (fun a b => keyD b ≤ keyD a)
        (fun a b d h1 h2 => le_trans h2 h1) fts ?_
      intro x hx y hy
      obtain ⟨kx, hkx⟩ := Option.isSome_iff_exists.mp (hvalidf x hx)
      obtain ⟨ky, hky⟩ := Option.isSome_iff_exists.mp (hvalidf y hy)
      have hqsb : (qs == some "oldest") = false := by
        cases qs with
        | none => rfl
        | some v =>
          rw [beq_eq_false_iff_ne]
          exact hqs
      have hc : taskComparator qs x y = some (ky - kx) := by
        simp [taskComparator, hqsb, jsSub, hkx, hky]
      have hkdx : keyD x = kx := by simp [keyD, hkx]
      have hkdy : keyD y = ky := by simp [keyD, hky]
      constructor
      · intro hp
        rw [hc] at hp
        have h0 : 0 < ky - kx := by simpa [compPos] using hp
        show keyD x ≤ keyD y
        rw [hkdx, hkdy]
        omega
      · intro hp
        rw [hc] at hp
        have h0 : ¬ (0 < ky - kx) := by simpa [compPos] using hp
        show keyD y ≤ keyD x
        rw [hkdx, hkdy]
        omega
    have hnd : ((sortByComp (taskComparator qs) fts).map keyD).Nodup := by
      refine ((hperm.map keyD).nodup_iff).mpr ?_
      exact (hsub.map keyD).nodup hdist
    have hne : (sortByComp (taskComparator qs) fts).Pairwise
        (fun a b => keyD a ≠ keyD b) := List.pairwise_map.mp hnd
    exact (hle.and hne).imp (fun h => lt_of_le_of_ne h.1 (Ne.symm h.2))
  · intro t _ hmiss
    simp [keyD, hmiss, dateVal]

/-- Witness for C2 amended: a two-task store with distinct timestamps,
default query. -/
theorem c2_sort_order_witness :
    ∃ out : List Task,
      getTasks none none [cB, ⟨3, "t", "d", true, some "low", DateStr.missing⟩]
        = ⟨200, RespBody.tasks out⟩ ∧
      out.Perm (completedFilter none [cB, ⟨3, "t", "d", true, some "low", DateStr.missing⟩]) ∧
      ((none : Option String) = some "oldest" → out.Pairwise (fun a b => keyD a < keyD b)) ∧
      ((none : Option String) ≠ some "oldest" → out.Pairwise (fun a b => keyD b < keyD a)) ∧
      (∀ t ∈ [cB, ⟨3, "t", "d", true, some "low", DateStr.missing⟩],
        t.createdAt = DateStr.missing → keyD t = 0) :=
  c2_sort_order [cB, ⟨3, "t", "d", true, some "low", DateStr.missing⟩] none none
    (by decide) (by decide)

/-! Claim C3. -/

/-- C3: validation checks title, description, completed, priority in that
fixed order and reports the first failing rule's message; in particular a
body whose `completed` is the string `"true"` (with valid title and
description) makes `POST /tasks` answer 400 with "completed is required
and must be a boolean" and leave the store unchanged. -/
theorem c3_validation_order (b : Body) (ts : List Task) (now : Clock) :
    (badRequiredString b.title = true →
      validateTask b true = some "title is required and must be a non-empty string") ∧
    (badRequiredString b.title = false → badRequiredString b.description = true →
      validateTask b true = some "description is required and must be a non-empty string") ∧
    (badRequiredString b.title = false → badRequiredString b.description = false →
      badRequiredBool b.completed = true →
      validateTask b true = some "completed is required and must be a boolean") ∧
    (badRequiredString b.title = false → badRequiredString b.description = false →
      badRequiredBool b.completed = false → priorityOk b.priority = false →
      validateTask b true = some "priority must be one of: low, medium, high") ∧
    (badRequiredString b.title = false → badRequiredString b.description = false →
      badRequiredBool b.completed = false → priorityOk b.priority = true →
      validateTask b true = none) ∧
    (badRequiredString b.title = false → badRequiredString b.description = false →
      b.completed = JsVal.jstr "true" →
      postTask b now ts
        = (⟨400, RespBody.error "completed is required and must be a boolean"⟩, ts)) := by
  refine ⟨?_, ?_, ?_, ?_, ?_, ?_⟩
  · intro h1
    simp [validateTask, h1]
  · intro h1 h2
    simp [validateTask, h1, h2]
  · intro h1 h2 h3
    simp [validateTask, h1, h2, h3]
  · intro h1 h2 h3 h4
    simp [validateTask, h1, h2, h3, h4]
  · intro h1 h2 h3 h4
    simp [validateTask, h1, h2, h3, h4]
  · intro h1 h2 h3
    have hbad : badRequiredBool b.completed = true := by rw [h3]; rfl
    exact postTask_invalid ts b now _ (by simp [validateTask, h1, h2, hbad])

/-- Witness for C3: the concrete string-completed body is rejected with
the completed message and creates nothing. -/
theorem c3_validation_order_witness :
    postTask ⟨JsVal.undef, JsVal.jstr "A", JsVal.jstr "B", JsVal.jstr "true",
        JsVal.undef, JsVal.undef⟩ clock0 []
      = (⟨400, RespBody.error "completed is required and must be a boolean"⟩, []) :=
  (c3_validation_order
      ⟨JsVal.undef, JsVal.jstr "A", JsVal.jstr "B", JsVal.jstr "true",
        JsVal.undef, JsVal.undef⟩ [] clock0).2.2.2.2.2
    (by decide) (by decide) (by decide)

/-! Claim C4. -/

/-- C4: with a `completed` query parameter of value `v`, `GET /tasks`
returns exactly (up to the sort's reordering) the tasks whose `completed`
field equals the strict comparison `v === "true"`: the completed tasks
when `v` is the literal string `"true"`, the incomplete ones for every
other value of `v`, including `"false"`. -/
theorem c4_completed_filter (ts : List Task) (v : String) (qs : Option String) :
    ∃ out : List Task,
      getTasks (some v) qs ts = ⟨200, RespBody.tasks out⟩ ∧
      out.Perm (ts.filter (fun t => t.completed == (v == "true"))) ∧
      (v = "true" → ∀ t ∈ out, t.completed = true) ∧
      (v ≠ "true" → ∀ t ∈ out, t.completed = false) := by
  refine ⟨sortByComp (taskComparator qs) (completedFilter (some v) ts), rfl, ?_, ?_, ?_⟩
  · simpa [completedFilter] using
      sortByComp_perm (taskComparator qs) (completedFilter (some v) ts)
  · intro hv t ht
    have ht2 : t ∈ completedFilter (some v) ts := (sortByComp_perm _ _).mem_iff.mp ht
    simp only [completedFilter] at ht2
    have h2 := (List.mem_filter.mp ht2).2
    rw [hv] at h2
    simpa using h2
  · intro hv t ht
    have ht2 : t ∈ completedFilter (some v) ts := (sortByComp_perm _ _).mem_iff.mp ht
    simp only [completedFilter] at ht2
    have h2 := (List.mem_filter.mp ht2).2
    have hb : (v == "true") = false := beq_eq_false_iff_ne.mpr hv
    rw [hb] at h2
    simpa using h2

/-- Witness for C4 at the spec's scenario shape: two completed and three
incomplete tasks, `completed=true`. -/
theorem c4_completed_filter_witness :
    ∃ out : List Task,
      getTasks (some "true") none
          [⟨1, "a", "d", true, some "medium", DateStr.missing⟩,
           ⟨2, "b", "d", false, some "medium", DateStr.missing⟩,
           ⟨3, "c", "d", true, some "medium", DateStr.missing⟩,
           ⟨4, "e", "d", false, some "medium", DateStr.missing⟩,
           ⟨5, "f", "d", false, some "medium", DateStr.missing⟩]
        = ⟨200, RespBody.tasks out⟩ ∧
      out.Perm ([⟨1, "a", "d", true, some "medium", DateStr.missing⟩,
           ⟨2, "b", "d", false, some "medium", DateStr.missing⟩,
           ⟨3, "c", "d", true, some "medium", DateStr.missing⟩,
           ⟨4, "e", "d", false, some "medium", DateStr.missing⟩,
           ⟨5, "f", "d", false, some "medium", DateStr.missing⟩].filter
             (fun t => t.completed == ("true" == "true"))) ∧
      ("true" = "true" → ∀ t ∈ out, t.completed = true) ∧
      ("true" ≠ "true" → ∀ t ∈ out, t.completed = false) :=
  c4_completed_filter
    [⟨1, "a", "d", true, some "medium", DateStr.missing⟩,
     ⟨2, "b", "d", false, some "medium", DateStr.missing⟩,
     ⟨3, "c", "d", true, some "medium", DateStr.missing⟩,
     ⟨4, "e", "d", false, some "medium", DateStr.missing⟩,
     ⟨5, "f", "d", false, some "medium", DateStr.missing⟩] "true" none

/-! Claim C5. -/

/-- C5: when the lower-cased level is one of low, medium, high the
priority route answers 200 with exactly the tasks whose priority
(defaulting to medium when missing) matches case-insensitively;
otherwise it answers 400 with the invalid-level message and no tasks. -/
theorem c5_priority_route (level : String) (ts : List Task) :
    (jsToLower level ∈ validPriorities →
      getTasksByPriority level ts =
        ⟨200, RespBody.tasks (ts.filter (fun t =>
          jsToLower (priorityOrMedium t.priority) == jsToLower level))⟩) ∧
    (jsToLower level ∉ validPriorities →
      getTasksByPriority level ts =
        ⟨400, RespBody.error "Invalid priority level. Must be one of: low, medium, high"⟩) := by
  constructor
  · intro h
    have hc : validPriorities.contains (jsToLower level) = true := by
      simpa [List.contains, List.elem_iff] using h
    simp only [getTasksByPriority, hc, Bool.not_true, Bool.false_eq_true, if_false]
  · intro h
    have hc : validPriorities.contains (jsToLower level) = false := by
      rw [Bool.eq_false_iff]
      intro hcon
      exact h (by simpa [List.contains, List.elem_iff] using hcon)
    simp only [getTasksByPriority, hc, Bool.not_false, if_true]

/-- Witness for C5: `GET /tasks/priority/HIGH` filters case-insensitively
and `GET /tasks/priority/urgent` is rejected. -/
theorem c5_priority_route_witness :
    (jsToLower "HIGH" ∈ validPriorities →
      getTasksByPriority "HIGH"
          [⟨1, "a", "d", true, some "high", DateStr.missing⟩,
           ⟨2, "b", "d", false, some "low", DateStr.missing⟩] =
        ⟨200, RespBody.tasks
          ([⟨1, "a", "d", true, some "high", DateStr.missing⟩,
            ⟨2, "b", "d", false, some "low", DateStr.missing⟩].filter (fun t =>
            jsToLower (priorityOrMedium t.priority) == jsToLower "HIGH"))⟩) ∧
    (jsToLower "HIGH" ∉ validPriorities →
      getTasksByPriority "HIGH"
          [⟨1, "a", "d", true, some "high", DateStr.missing⟩,
           ⟨2, "b", "d", false, some "low", DateStr.missing⟩] =
        ⟨400, RespBody.error "Invalid priority level. Must be one of: low, medium, high"⟩) :=
  c5_priority_route "HIGH"
    [⟨1, "a", "d", true, some "high", DateStr.missing⟩,
     ⟨2, "b", "d", false, some "low", DateStr.missing⟩]

/-! Helper lemmas for the update/create claims. -/

/-- Replacing the first match preserves the store's length. -/
theorem replaceFirst_length (p : Task → Bool) (f : Task → Task) (l : List Task) :
    (replaceFirst p f l).length = l.length := by
  induction l with
  | nil => rfl
  | cons t ts ih =>
    rw [replaceFirst]
    cases h : p t with
    | true => simp
    | false => simp [ih]

/-- Positions holding a non-matching task are untouched by
`replaceFirst`. -/
theorem replaceFirst_getElem? (p : Task → Bool) (f : Task → Task) (l : List Task)
    (i : Nat) (t : Task) (hget : l[i]? = some t) (hp : p t = false) :
    (replaceFirst p f l)[i]? = some t := by
  induction l generalizing i with
  | nil => simp at hget
  | cons x xs ih =>
    rw [replaceFirst]
    cases h : p x with
    | true =>
      cases i with
      | zero =>
        have hx : x = t := by simpa using hget
        rw [hx] at h
        rw [h] at hp
        cases hp
      | succ m =>
        simp only [if_true, List.getElem?_cons_succ]
        simpa using hget
    | false =>
      cases i with
      | zero => simpa using hget
      | succ m =>
        simp only [Bool.false_eq_true, if_false, List.getElem?_cons_succ]
        exact ih m (by simpa using hget)

/-- A strict validation pass means each of the four rules passed. -/
theorem validateTask_none_parts (b : Body) (h : validateTask b true = none) :
    badRequiredString b.title = false ∧ badRequiredString b.description = false ∧
    badRequiredBool b.completed = false ∧ priorityOk b.priority = true := by
  cases h1 : badRequiredString b.title with
  | true => rw [validateTask] at h; simp [h1] at h
  | false =>
    cases h2 : badRequiredString b.description with
    | true => rw [validateTask] at h; simp [h1, h2] at h
    | false =>
      cases h3 : badRequiredBool b.completed with
      | true => rw [validateTask] at h; simp [h1, h2, h3] at h
      | false =>
        cases h4 : priorityOk b.priority with
        | true => exact ⟨rfl, rfl, rfl, rfl⟩
        | false => rw [validateTask] at h; simp [h1, h2, h3, h4] at h

/-- A present (non-`undefined`) priority that passed validation is a
truthy enumeration string. -/
theorem priorityOk_not_undef (v : JsVal) (hok : priorityOk v = true)
    (hne : v ≠ JsVal.undef) :
    v.truthy = true ∧ ∃ s, v = JsVal.jstr s ∧ s ∈ validPriorities := by
  rw [priorityOk] at hok
  have hbeq : (v == JsVal.undef) = false := beq_eq_false_iff_ne.mpr hne
  rw [hbeq, Bool.false_or] at hok
  obtain ⟨s, hs, hv⟩ := List.any_eq_true.mp hok
  have hveq : v = JsVal.jstr s := by simpa using hv
  refine ⟨?_, s, hveq, hs⟩
  rw [hveq]
  have : s ≠ "" := by
    have hs2 : s = "low" ∨ s = "medium" ∨ s = "high" := by
      simpa [validPriorities] using hs
    rcases hs2 with h | h | h <;> (rw [h]; decide)
  simpa [JsVal.truthy] using this

/-- `find?` skips a prefix on which the predicate fails everywhere. -/
theorem find?_append_of_none (p : Task → Bool) (l1 l2 : List Task)
    (h : ∀ x ∈ l1, p x = false) : (l1 ++ l2).find? p = l2.find? p := by
  induction l1 with
  | nil => rfl
  | cons x xs ih =>
    rw [List.cons_append, List.find?_cons_of_neg]
    · exact ih (fun y hy => h y (by simp [hy]))
    · simp [h x (by simp)]

/-! Claim C6. -/

/-- C6: a successful `PUT /tasks/:id` on an existing task (whose stored
`createdAt` and priority are truthy, as for every record the handlers or
the loader wrote) answers 200 with a record keeping the task's `id` and
`createdAt`, taking title/description/completed from the body, taking
priority from the body when present and otherwise keeping the prior one;
the store keeps its length and every position holding a task with a
different id is unchanged. -/
theorem c6_put_success (ts : List Task) (idStr : String) (n : Int) (reqBody : Body)
    (now : Clock) (ex : Task) (p : String)
    (hparse : parseIntJs idStr = some n)
    (hfind : ts.find? (matchesId (some n)) = some ex)
    (hval : validateTask reqBody true = none)
    (hca : ex.createdAt ≠ DateStr.missing)
    (hp : ex.priority = some p) (hpne : p ≠ "") :
    putTask idStr reqBody now ts
      = (⟨200, RespBody.task (updatedTask (some n) reqBody now ex)⟩,
         replaceFirst (matchesId (some n)) (fun _ => updatedTask (some n) reqBody now ex) ts) ∧
    (updatedTask (some n) reqBody now ex).id = ex.id ∧
    (updatedTask (some n) reqBody now ex).createdAt = ex.createdAt ∧
    (updatedTask (some n) reqBody now ex).title = reqBody.title.strVal ∧
    (updatedTask (some n) reqBody now ex).description = reqBody.description.strVal ∧
    (updatedTask (some n) reqBody now ex).completed = reqBody.completed.boolVal ∧
    (reqBody.priority ≠ JsVal.undef →
      (updatedTask (some n) reqBody now ex).priority = some reqBody.priority.strVal) ∧
    (reqBody.priority = JsVal.undef →
      (updatedTask (some n) reqBody now ex).priority = ex.priority) ∧
    (replaceFirst (matchesId (some n)) (fun _ => updatedTask (some n) reqBody now ex) ts).length
      = ts.length ∧
    (∀ i : Nat, ∀ u : Task, ts[i]? = some u → u.id ≠ n →
      (replaceFirst (matchesId (some n)) (fun _ => updatedTask (some n) reqBody now ex) ts)[i]?
        = some u) := by
  have hexid : ex.id = n := by
    have := List.find?_some hfind
    simpa [matchesId] using this
  refine ⟨?_, ?_, ?_, rfl, rfl, rfl, ?_, ?_, replaceFirst_length _ _ ts, ?_⟩
  · simp only [putTask, hparse, hfind, hval]
  · simp [updatedTask, hexid]
  · cases hcd : ex.createdAt with
    | missing => exact absurd hcd hca
    | invalid s => simp [updatedTask, hcd]
    | valid s ms => simp [updatedTask, hcd]
  · intro hne
    obtain ⟨htr, s, hvs, _⟩ :=
      priorityOk_not_undef reqBody.priority (validateTask_none_parts reqBody hval).2.2.2 hne
    simp [updatedTask, htr]
  · intro hundef
    have htr : reqBody.priority.truthy = false := by rw [hundef]; rfl
    have hpb : (p == "") = false := beq_eq_false_iff_ne.mpr hpne
    simp [updatedTask, htr, hp, priorityOrMedium, hpb]
  · intro i u hget hne
    refine replaceFirst_getElem? _ _ ts i u hget ?_
    simp [matchesId, hne]

/-- Witness for C6 at a concrete store, task and body. -/
theorem c6_put_success_witness :
    putTask "1" body0 clock0 [⟨1, "old", "old", true, some "high", DateStr.valid "x" 5⟩]
      = (⟨200, RespBody.task (updatedTask (some 1) body0 clock0
            ⟨1, "old", "old", true, some "high", DateStr.valid "x" 5⟩)⟩,
         replaceFirst (matchesId (some 1))
           (fun _ => updatedTask (some 1) body0 clock0
             ⟨1, "old", "old", true, some "high", DateStr.valid "x" 5⟩)
           [⟨1, "old", "old", true, some "high", DateStr.valid "x" 5⟩]) ∧
    (updatedTask (some 1) body0 clock0
        ⟨1, "old", "old", true, some "high", DateStr.valid "x" 5⟩).id
      = (⟨1, "old", "old", true, some "high", DateStr.valid "x" 5⟩ : Task).id ∧
    (updatedTask (some 1) body0 clock0
        ⟨1, "old", "old", true, some "high", DateStr.valid "x" 5⟩).createdAt
      = (⟨1, "old", "old", true, some "high", DateStr.valid "x" 5⟩ : Task).createdAt ∧
    (updatedTask (some 1) body0 clock0
        ⟨1, "old", "old", true, some "high", DateStr.valid "x" 5⟩).title
      = body0.title.strVal ∧
    (updatedTask (some 1) body0 clock0
        ⟨1, "old", "old", true, some "high", DateStr.valid "x" 5⟩).description
      = body0.description.strVal ∧
    (updatedTask (some 1) body0 clock0
        ⟨1, "old", "old", true, some "high", DateStr.valid "x" 5⟩).completed
      = body0.completed.boolVal ∧
    (body0.priority ≠ JsVal.undef →
      (updatedTask (some 1) body0 clock0
          ⟨1, "old", "old", true, some "high", DateStr.valid "x" 5⟩).priority
        = some body0.priority.strVal) ∧
    (body0.priority = JsVal.undef →
      (updatedTask (some 1) body0 clock0
          ⟨1, "old", "old", true, some "high", DateStr.valid "x" 5⟩).priority
        = (⟨1, "old", "old", true, some "high", DateStr.valid "x" 5⟩ : Task).priority) ∧
    (replaceFirst (matchesId (some 1))
        (fun _ => updatedTask (some 1) body0 clock0
          ⟨1, "old", "old", true, some "high", DateStr.valid "x" 5⟩)
        [⟨1, "old", "old", true, some "high", DateStr.valid "x" 5⟩]).length
      = ([⟨1, "old", "old", true, some "high", DateStr.valid "x" 5⟩] : List Task).length ∧
    (∀ i : Nat, ∀ u : Task,
      [⟨1, "old", "old", true, some "high", DateStr.valid "x" 5⟩][i]? = some u → u.id ≠ 1 →
      (replaceFirst (matchesId (some 1))
          (fun _ => updatedTask (some 1) body0 clock0
            ⟨1, "old", "old", true, some "high", DateStr.valid "x" 5⟩)
          [⟨1, "old", "old", true, some "high", DateStr.valid "x" 5⟩])[i]? = some u) :=
  c6_put_success [⟨1, "old", "old", true, some "high", DateStr.valid "x" 5⟩] "1" 1 body0
    clock0 ⟨1, "old", "old", true, some "high", DateStr.valid "x" 5⟩ "high"
    (by decide) (by decide) (by decide) (by decide) (by decide) (by decide)

/-! Claim C7. -/

/-- C7: `PUT /tasks/:id` answers 404 whenever no stored task carries the
parsed id, regardless of the body (the existence check precedes
validation); when the task exists but strict validation fails it answers
400 with the rule's message; in both cases the store is exactly the one
before the request. -/
theorem c7_put_error_paths (ts : List Task) (idStr : String) (reqBody : Body)
    (now : Clock) :
    (ts.find? (matchesId (parseIntJs idStr)) = none →
      putTask idStr reqBody now ts = (⟨404, RespBody.error "Task not found"⟩, ts)) ∧
    (∀ ex, ts.find? (matchesId (parseIntJs idStr)) = some ex →
      ∀ msg, validateTask reqBody true = some msg →
        putTask idStr reqBody now ts = (⟨400, RespBody.error msg⟩, ts)) := by
  constructor
  · intro hfind
    simp only [putTask, hfind]
  · intro ex hfind msg hval
    simp only [putTask, hfind, hval]

/-- Witness for C7: `PUT /tasks/999` on a one-task store with a fully
valid body is a 404 and leaves the store unchanged. -/
theorem c7_put_error_paths_witness :
    ([⟨1, "a", "d", false, some "medium", DateStr.missing⟩] : List Task).find?
        (matchesId (parseIntJs "999")) = none ∧
    putTask "999" body0 clock0 [⟨1, "a", "d", false, some "medium", DateStr.missing⟩]
      = (⟨404, RespBody.error "Task not found"⟩,
         [⟨1, "a", "d", false, some "medium", DateStr.missing⟩]) :=
  ⟨by decide,
   (c7_put_error_paths [⟨1, "a", "d", false, some "medium", DateStr.missing⟩] "999"
     body0 clock0).1 (by decide)⟩

/-! Claim C8. -/

/-- C8: creating a task from a strictly valid body and fetching the
returned id yields exactly the created record: body title, description
and completed, body priority (or "medium" when the body omits it), the
generated id `maxId + 1` and the generated `createdAt`. -/
theorem c8_round_trip (ts : List Task) (b : Body) (now : Clock) (idStr : String)
    (hval : validateTask b true = none)
    (hparse : parseIntJs idStr = some (maxId ts + 1)) :
    postTask b now ts
      = (⟨201, RespBody.task (createdTask b now ts)⟩, ts ++ [createdTask b now ts]) ∧
    getTaskById idStr (postTask b now ts).2 = ⟨200, RespBody.task (createdTask b now ts)⟩ ∧
    (createdTask b now ts).title = b.title.strVal ∧
    (createdTask b now ts).description = b.description.strVal ∧
    (createdTask b now ts).completed = b.completed.boolVal ∧
    (b.priority ≠ JsVal.undef → (createdTask b now ts).priority = some b.priority.strVal) ∧
    (b.priority = JsVal.undef → (createdTask b now ts).priority = some "medium") ∧
    (createdTask b now ts).id = maxId ts + 1 ∧
    (createdTask b now ts).createdAt = DateStr.valid now.isoStr now.ms := by
  have hpost : postTask b now ts
      = (⟨201, RespBody.task (createdTask b now ts)⟩, ts ++ [createdTask b now ts]) := by
    simp only [postTask, hval]
  refine ⟨hpost, ?_, rfl, rfl, rfl, ?_, ?_, rfl, rfl⟩
  · rw [hpost]
    have hskip : (ts ++ [createdTask b now ts]).find? (matchesId (some (maxId ts + 1)))
        = [createdTask b now ts].find? (matchesId (some (maxId ts + 1))) := by
      refine find?_append_of_none _ ts _ ?_
      intro x hx
      have hle := le_maxId ts x hx
      have hne : x.id ≠ maxId ts + 1 := by omega
      simp [matchesId, hne]
    have hhit : [createdTask b now ts].find? (matchesId (some (maxId ts + 1)))
        = some (createdTask b now ts) := by
      rw [List.find?_cons_of_pos]
      simp [matchesId, createdTask]
    simp only [getTaskById, hparse, hskip, hhit]
  · intro hne
    obtain ⟨htr, s, hvs, _⟩ :=
      priorityOk_not_undef b.priority (validateTask_none_parts b hval).2.2.2 hne
    simp [createdTask, htr]
  · intro hundef
    have htr : b.priority.truthy = false := by rw [hundef]; rfl
    simp [createdTask, htr]

/-- Witness for C8: create from `body0` on the empty store, fetch id 1. -/
theorem c8_round_trip_witness :
    postTask body0 clock0 []
      = (⟨201, RespBody.task (createdTask body0 clock0 [])⟩,
         [] ++ [createdTask body0 clock0 []]) ∧
    getTaskById "1" (postTask body0 clock0 []).2
      = ⟨200, RespBody.task (createdTask body0 clock0 [])⟩ ∧
    (createdTask body0 clock0 []).title = body0.title.strVal ∧
    (createdTask body0 clock0 []).description = body0.description.strVal ∧
    (createdTask body0 clock0 []).completed = body0.completed.boolVal ∧
    (body0.priority ≠ JsVal.undef →
      (createdTask body0 clock0 []).priority = some body0.priority.strVal) ∧
    (body0.priority = JsVal.undef → (createdTask body0 clock0 []).priority = some "medium") ∧
    (createdTask body0 clock0 []).id = maxId [] + 1 ∧
    (createdTask body0 clock0 []).createdAt = DateStr.valid clock0.isoStr clock0.ms :=
  c8_round_trip [] body0 clock0 "1" (by decide) (by decide)

/-! Claim C9. -/

/-- C9: when the parsed id (NaN for non-numeric segments) matches no
stored task, the by-id GET, PUT and DELETE all answer 404 with the
"Task not found" error and leave the store untouched. -/
theorem c9_not_found (ts : List Task) (idStr : String) (reqBody : Body) (now : Clock)
    (h : ∀ t ∈ ts, matchesId (parseIntJs idStr) t = false) :
    getTaskById idStr ts = ⟨404, RespBody.error "Task not found"⟩ ∧
    putTask idStr reqBody now ts = (⟨404, RespBody.error "Task not found"⟩, ts) ∧
    deleteTask idStr ts = (⟨404, RespBody.error "Task not found"⟩, ts) := by
  have hfind : ts.find? (matchesId (parseIntJs idStr)) = none := by
    rw [List.find?_eq_none]
    intro x hx
    simp [h x hx]
  exact ⟨by simp only [getTaskById, hfind], by simp only [putTask, hfind],
    by simp only [deleteTask, hfind]⟩

/-- Witness for C9: the non-numeric segment "abc" (NaN) on a nonempty
store. -/
theorem c9_not_found_witness :
    getTaskById "abc" [⟨1, "a", "d", false, some "medium", DateStr.missing⟩]
      = ⟨404, RespBody.error "Task not found"⟩ ∧
    putTask "abc" body0 clock0 [⟨1, "a", "d", false, some "medium", DateStr.missing⟩]
      = (⟨404, RespBody.error "Task not found"⟩,
         [⟨1, "a", "d", false, some "medium", DateStr.missing⟩]) ∧
    deleteTask "abc" [⟨1, "a", "d", false, some "medium", DateStr.missing⟩]
      = (⟨404, RespBody.error "Task not found"⟩,
         [⟨1, "a", "d", false, some "medium", DateStr.missing⟩]) :=
  c9_not_found [⟨1, "a", "d", false, some "medium", DateStr.missing⟩] "abc" body0 clock0
    (by decide)

/-! Claim C10. -/

/-- C10: two create (or update) requests against the same store and clock
whose bodies agree on title, description, completed and priority — and
may differ arbitrarily in the `id` and `createdAt` fields the client
sent — produce identical responses and stores: the stored id and
`createdAt` are chosen by the server alone. -/
theorem c10_body_id_ignored (ts : List Task) (now : Clock) (idStr : String)
    (b1 b2 : Body)
    (ht : b1.title = b2.title) (hd : b1.description = b2.description)
    (hc : b1.completed = b2.completed) (hp : b1.priority = b2.priority) :
    postTask b1 now ts = postTask b2 now ts ∧
    putTask idStr b1 now ts = putTask idStr b2 now ts := by
  have hveq : validateTask b1 true = validateTask b2 true := by
    simp only [validateTask, ht, hd, hc, hp]
  constructor
  · cases hv : validateTask b2 true with
    | some msg =>
      rw [postTask_invalid ts b1 now msg (hveq.trans hv),
        postTask_invalid ts b2 now msg hv]
    | none =>
      simp only [postTask, hveq.trans hv, hv, createdTask, ht, hd, hc, hp]
  · cases hf : ts.find? (matchesId (parseIntJs idStr)) with
    | none => simp only [putTask, hf]
    | some ex =>
      cases hv : validateTask b2 true with
      | some msg => simp only [putTask, hf, hveq.trans hv, hv]
      | none =>
        simp only [putTask, hf, hveq.trans hv, hv, updatedTask, ht, hd, hc, hp]

/-- Witness for C10: bodies differing only in client-sent `id` and
`createdAt`. -/
theorem c10_body_id_ignored_witness :
    postTask ⟨JsVal.jnum 999, JsVal.jstr "A", JsVal.jstr "B", JsVal.jbool false,
        JsVal.undef, JsVal.jstr "1999-01-01"⟩ clock0 []
      = postTask body0 clock0 [] ∧
    putTask "1" ⟨JsVal.jnum 999, JsVal.jstr "A", JsVal.jstr "B", JsVal.jbool false,
        JsVal.undef, JsVal.jstr "1999-01-01"⟩ clock0 []
      = putTask "1" body0 clock0 [] :=
  c10_body_id_ignored [] clock0 "1"
    ⟨JsVal.jnum 999, JsVal.jstr "A", JsVal.jstr "B", JsVal.jbool false,
      JsVal.undef, JsVal.jstr "1999-01-01"⟩ body0
    (by decide) (by decide) (by decide) (by decide)

end TaskApi
